import Mathlib

/-
Shallow embedding of the container ADTs of the repository
EA_Ejercicios_JS:

  * src/ea02_EstructurasBasicas/Stack.mjs  — class Stack, backed by a JS array
    (push / pop / isEmpty / size);
  * src/ea02_EstructurasBasicas/Queue.mjs  — class Queue, backed by a JS array
    (enqueue / dequeue / isEmpty / size);
  * the ListaSimple module (class Nodo + class ListaSimple with the private
    fields #first and #n; addHead / removeHead / isEmpty / size).

JavaScript arrays are embedded as Lean lists; the null-terminated chain of
Nodo objects hanging off #first is likewise embedded as the Lean list of the
items stored in the chain (the empty list stands for an absent #first
reference).  JavaScript numbers used as counters are embedded as Int.
Array.prototype.pop and Array.prototype.shift return undefined on an empty
array instead of throwing, which the embedding renders as an Option result:
none stands for that undefined, and the total function type records that no
exception is raised.  The only throw in the sources, in
ListaSimple.removeHead, is embedded through Except with an explicit error
value (see JSError below).
-/

namespace EA

/-- JavaScript values as used by the repository's drivers and inline tests
(numbers, strings, and the two absent-value sentinels null and undefined).
The containers themselves are generic: a JS array stores values of any
type. -/
inductive JSVal : Type
  | num : Int → JSVal
  | str : String → JSVal
  | nullV : JSVal
  | undefinedV : JSVal
deriving DecidableEq, Repr

/-- An item is absent in the sense of the repository guidelines when it is
null or undefined. -/
def JSVal.absent : JSVal → Bool
  | JSVal.nullV => true
  | JSVal.undefinedV => true
  | _ => false

/-- Errors a JavaScript engine can raise while running the embedded code.
ListaSimple.removeHead executes `throw new Exception("Lista vacia")`; the
identifier Exception is not declared anywhere (neither in the module nor as
a JS/Node global), so evaluating it raises a ReferenceError carrying the
identifier's name, before any field of the list is mutated.  ReferenceError
is a subclass of Error in JavaScript. -/
inductive JSError : Type
  | referenceError : String → JSError
deriving DecidableEq, Repr

/-- class Stack (Stack.mjs): `this.items = []`, a JS array. -/
structure Stack (α : Type) where
  items : List α
deriving DecidableEq, Repr

/-- `constructor() { this.items = []; }` -/
def Stack.new {α : Type} : Stack α := ⟨[]⟩

/-- `push(item) { this.items.push(item); }` — Array.prototype.push appends
at the end of the array. -/
def Stack.push {α : Type} (s : Stack α) (item : α) : Stack α :=
  ⟨s.items ++ [item]⟩

/-- `pop() { return this.items.pop(); }` — Array.prototype.pop removes and
returns the last element; on an empty array it returns undefined (none) and
leaves the array empty.  No exception is ever raised. -/
def Stack.pop {α : Type} (s : Stack α) : Option α × Stack α :=
  (s.items.getLast?, ⟨s.items.dropLast⟩)

/-- `isEmpty() { return this.items.length===0; }` -/
def Stack.isEmpty {α : Type} (s : Stack α) : Bool :=
  s.items.length == 0

/-- `size() { return this.items.length; }` -/
def Stack.size {α : Type} (s : Stack α) : Nat :=
  s.items.length

/-- class Queue (Queue.mjs): `this.items = []`, a JS array.  The state holds
nothing besides that array: in particular there is no tail reference. -/
structure Queue (α : Type) where
  items : List α
deriving DecidableEq, Repr

/-- `constructor() { this.items = []; }` -/
def Queue.new {α : Type} : Queue α := ⟨[]⟩

/-- `enqueue(item) { this.items.push(item); }` — appends at the end. -/
def Queue.enqueue {α : Type} (q : Queue α) (item : α) : Queue α :=
  ⟨q.items ++ [item]⟩

/-- `dequeue() { return this.items.shift(); }` — Array.prototype.shift
removes and returns the first element; on an empty array it returns
undefined (none).  No exception is ever raised. -/
def Queue.dequeue {α : Type} (q : Queue α) : Option α × Queue α :=
  (q.items.head?, ⟨q.items.tail⟩)

/-- `isEmpty() { return this.items.length===0; }` -/
def Queue.isEmpty {α : Type} (q : Queue α) : Bool :=
  q.items.length == 0

/-- `size() { return this.items.length; }` -/
def Queue.size {α : Type} (q : Queue α) : Nat :=
  q.items.length

/-- Cost model for `dequeue`: Array.prototype.shift removes index 0 and
re-indexes every remaining element, so the work it performs on a given
array is proportional to the array's length.  We count one unit per element
of the array at the time of the call. -/
def Queue.dequeueCost {α : Type} (q : Queue α) : Nat :=
  q.items.length

/-- class ListaSimple: the private field #first references the first Nodo of
a null-terminated chain (class Nodo { item; sig }), embedded as the list of
the chain's items ([] for an absent reference), and the private field
#n = 0 counts the nodes, a JS number embedded as Int. -/
structure ListaSimple (α : Type) where
  first : List α
  n : Int
deriving DecidableEq, Repr

/-- A fresh list: #first undefined (absent), #n = 0. -/
def ListaSimple.new {α : Type} : ListaSimple α := ⟨[], 0⟩

/-- `addHead(item)`: `let x = new Nodo(); x.item = item; x.sig = this.#first;
this.#first = x; this.#n++;` — a new node carrying item is prepended to the
chain and the counter is incremented.  No check is performed on item. -/
def ListaSimple.addHead {α : Type} (l : ListaSimple α) (item : α) : ListaSimple α :=
  ⟨item :: l.first, l.n + 1⟩

/-- `removeHead()`: `if (!this.#first) throw new Exception("Lista vacia");`
— when #first is absent the throw statement runs first; evaluating the
undeclared identifier Exception raises a ReferenceError, and no field has
been touched yet.  Otherwise `const i = this.#first.item; this.#first =
this.#first.sig; this.#n--; return i;`. -/
def ListaSimple.removeHead {α : Type} (l : ListaSimple α) :
    Except JSError (α × ListaSimple α) :=
  match l.first with
  | [] => Except.error (JSError.referenceError "Exception")
  | i :: rest => Except.ok (i, ⟨rest, l.n - 1⟩)

/-- `isEmpty() { return this.#n == 0; }` -/
def ListaSimple.isEmpty {α : Type} (l : ListaSimple α) : Bool :=
  l.n == 0

/-- `size() { return this.#n; }` -/
def ListaSimple.size {α : Type} (l : ListaSimple α) : Int :=
  l.n

/-- One generic container operation: each variant has exactly one add
operation (push / enqueue / addHead) and one remove operation
(pop / dequeue / removeHead). -/
inductive COp (α : Type) : Type
  | add : α → COp α
  | remove : COp α
deriving DecidableEq, Repr

/-- Number of add operations in a sequence. -/
def COp.addCount {α : Type} : List (COp α) → Nat
  | [] => 0
  | COp.add _ :: os => COp.addCount os + 1
  | COp.remove :: os => COp.addCount os

/-- Number of remove operations in a sequence. -/
def COp.removeCount {α : Type} : List (COp α) → Nat
  | [] => 0
  | COp.add _ :: os => COp.removeCount os
  | COp.remove :: os => COp.removeCount os + 1

/-- Effect of one operation on a Stack.  A pop on an empty stack returns
undefined and leaves the (empty) array as it is. -/
def Stack.step {α : Type} (s : Stack α) : COp α → Stack α
  | COp.add i => s.push i
  | COp.remove => (s.pop).2

/-- Run a sequence of operations on a stack. -/
def Stack.runFrom {α : Type} (s : Stack α) : List (COp α) → Stack α
  | [] => s
  | o :: os => Stack.runFrom (s.step o) os

/-- Run a sequence of operations on a freshly constructed stack. -/
def Stack.run {α : Type} (ops : List (COp α)) : Stack α :=
  Stack.runFrom Stack.new ops

/-- Run a sequence of operations on a stack, demanding that every remove be
successful (return an item): a pop that would come back with undefined
aborts the run. -/
def Stack.runCheckedFrom {α : Type} (s : Stack α) : List (COp α) → Option (Stack α)
  | [] => some s
  | COp.add i :: os => Stack.runCheckedFrom (s.push i) os
  | COp.remove :: os =>
    match (s.pop).1 with
    | some _ => Stack.runCheckedFrom (s.pop).2 os
    | none => none

/-- Checked run from a freshly constructed stack. -/
def Stack.runChecked {α : Type} (ops : List (COp α)) : Option (Stack α) :=
  Stack.runCheckedFrom Stack.new ops

/-- Effect of one operation on a Queue. -/
def Queue.step {α : Type} (q : Queue α) : COp α → Queue α
  | COp.add i => q.enqueue i
  | COp.remove => (q.dequeue).2

/-- Run a sequence of operations on a queue. -/
def Queue.runFrom {α : Type} (q : Queue α) : List (COp α) → Queue α
  | [] => q
  | o :: os => Queue.runFrom (q.step o) os

/-- Run a sequence of operations on a freshly constructed queue. -/
def Queue.run {α : Type} (ops : List (COp α)) : Queue α :=
  Queue.runFrom Queue.new ops

/-- Run a sequence of operations on a queue, demanding that every dequeue be
successful. -/
def Queue.runCheckedFrom {α : Type} (q : Queue α) : List (COp α) → Option (Queue α)
  | [] => some q
  | COp.add i :: os => Queue.runCheckedFrom (q.enqueue i) os
  | COp.remove :: os =>
    match (q.dequeue).1 with
    | some _ => Queue.runCheckedFrom (q.dequeue).2 os
    | none => none

/-- Checked run from a freshly constructed queue. -/
def Queue.runChecked {α : Type} (ops : List (COp α)) : Option (Queue α) :=
  Queue.runCheckedFrom Queue.new ops

/-- Effect of one operation on a ListaSimple.  A removeHead on an empty list
throws before mutating anything, so the state is unchanged. -/
def ListaSimple.step {α : Type} (l : ListaSimple α) : COp α → ListaSimple α
  | COp.add i => l.addHead i
  | COp.remove =>
    match l.removeHead with
    | Except.ok (_, l2) => l2
    | Except.error _ => l

/-- Run a sequence of operations on a ListaSimple. -/
def ListaSimple.runFrom {α : Type} (l : ListaSimple α) : List (COp α) → ListaSimple α
  | [] => l
  | o :: os => ListaSimple.runFrom (l.step o) os

/-- Run a sequence of operations on a freshly constructed ListaSimple. -/
def ListaSimple.run {α : Type} (ops : List (COp α)) : ListaSimple α :=
  ListaSimple.runFrom ListaSimple.new ops

/-- Run a sequence of operations on a ListaSimple, demanding that every
removeHead be successful (not throw). -/
def ListaSimple.runCheckedFrom {α : Type} (l : ListaSimple α) :
    List (COp α) → Option (ListaSimple α)
  | [] => some l
  | COp.add i :: os => ListaSimple.runCheckedFrom (l.addHead i) os
  | COp.remove :: os =>
    match l.removeHead with
    | Except.ok (_, l2) => ListaSimple.runCheckedFrom l2 os
    | Except.error _ => none

/-- Checked run from a freshly constructed ListaSimple. -/
def ListaSimple.runChecked {α : Type} (ops : List (COp α)) : Option (ListaSimple α) :=
  ListaSimple.runCheckedFrom ListaSimple.new ops

/-- Size accounting for checked stack runs: every add grows the array by one
and every successful pop shrinks it by one. -/
theorem stack_runCheckedFrom_size {α : Type} :
    ∀ (ops : List (COp α)) (s0 s : Stack α),
      Stack.runCheckedFrom s0 ops = some s →
      s.size + COp.removeCount ops = s0.size + COp.addCount ops := by
  intro ops
  induction ops with
  | nil =>
    intro s0 s h
    simp only [Stack.runCheckedFrom, Option.some.injEq] at h
    subst h
    simp [COp.addCount, COp.removeCount]
  | cons o os ih =>
    intro s0 s h
    cases o with
    | add i =>
      simp only [Stack.runCheckedFrom] at h
      have h2 := ih (s0.push i) s h
      simp only [Stack.push, Stack.size, List.length_append, List.length_cons,
        List.length_nil, COp.addCount, COp.removeCount] at h2 ⊢
      omega
    | remove =>
      simp only [Stack.runCheckedFrom] at h
      rcases List.eq_nil_or_concat s0.items with hnil | ⟨L, b, hLb⟩
      · have hp : (s0.pop).1 = none := by simp [Stack.pop, hnil]
        rw [hp] at h
        exact absurd h (by simp)
      · rw [List.concat_eq_append] at hLb
        have hp1 : (s0.pop).1 = some b := by simp [Stack.pop, hLb]
        have hp2 : (s0.pop).2 = ⟨L⟩ := by simp [Stack.pop, hLb]
        rw [hp1, hp2] at h
        have h3 : Stack.runCheckedFrom (⟨L⟩ : Stack α) os = some s := h
        have h4 := ih ⟨L⟩ s h3
        simp only [Stack.size, COp.addCount, COp.removeCount, hLb,
          List.length_append, List.length_cons, List.length_nil] at h4 ⊢
        omega

/-- Size accounting for checked queue runs. -/
theorem queue_runCheckedFrom_size {α : Type} :
    ∀ (ops : List (COp α)) (q0 q : Queue α),
      Queue.runCheckedFrom q0 ops = some q →
      q.size + COp.removeCount ops = q0.size + COp.addCount ops := by
  intro ops
  induction ops with
  | nil =>
    intro q0 q h
    simp only [Queue.runCheckedFrom, Option.some.injEq] at h
    subst h
    simp [COp.addCount, COp.removeCount]
  | cons o os ih =>
    intro q0 q h
    cases o with
    | add i =>
      simp only [Queue.runCheckedFrom] at h
      have h2 := ih (q0.enqueue i) q h
      simp only [Queue.enqueue, Queue.size, List.length_append, List.length_cons,
        List.length_nil, COp.addCount, COp.removeCount] at h2 ⊢
      omega
    | remove =>
      obtain ⟨qitems⟩ := q0
      cases qitems with
      | nil =>
        have h2 : (none : Option (Queue α)) = some q := h
        exact Option.noConfusion h2
      | cons a t =>
        have h3 : Queue.runCheckedFrom (⟨t⟩ : Queue α) os = some q := h
        have h4 := ih ⟨t⟩ q h3
        simp only [Queue.size, COp.addCount, COp.removeCount, List.length_cons] at h4 ⊢
        omega

/-- Size and chain-length accounting for checked ListaSimple runs: the
counter #n and the length of the node chain move in lockstep. -/
theorem lista_runCheckedFrom_size {α : Type} :
    ∀ (ops : List (COp α)) (l0 l : ListaSimple α),
      ListaSimple.runCheckedFrom l0 ops = some l →
      l.first.length + COp.removeCount ops = l0.first.length + COp.addCount ops ∧
      l.n = l0.n + (COp.addCount ops : Int) - (COp.removeCount ops : Int) := by
  intro ops
  induction ops with
  | nil =>
    intro l0 l h
    simp only [ListaSimple.runCheckedFrom, Option.some.injEq] at h
    subst h
    simp [COp.addCount, COp.removeCount]
  | cons o os ih =>
    intro l0 l h
    cases o with
    | add i =>
      simp only [ListaSimple.runCheckedFrom] at h
      have h2 := ih (l0.addHead i) l h
      simp only [ListaSimple.addHead, List.length_cons, COp.addCount, COp.removeCount] at h2 ⊢
      constructor
      · omega
      · push_cast
        omega
    | remove =>
      obtain ⟨f0, n0⟩ := l0
      cases f0 with
      | nil =>
        have h2 : (none : Option (ListaSimple α)) = some l := h
        exact Option.noConfusion h2
      | cons i rest =>
        have h3 : ListaSimple.runCheckedFrom (⟨rest, n0 - 1⟩ : ListaSimple α) os = some l := h
        have h4 := ih ⟨rest, n0 - 1⟩ l h3
        simp only [List.length_cons, COp.addCount, COp.removeCount] at h4 ⊢
        constructor
        · omega
        · push_cast
          omega

/-- The representation invariant #n = length of the node chain is preserved
by every public operation of ListaSimple (including a failed removeHead,
which throws before mutating the state). -/
theorem lista_runFrom_inv {α : Type} :
    ∀ (ops : List (COp α)) (l : ListaSimple α),
      l.n = (l.first.length : Int) →
      (ListaSimple.runFrom l ops).n = ((ListaSimple.runFrom l ops).first.length : Int) := by
  intro ops
  induction ops with
  | nil => intro l h; exact h
  | cons o os ih =>
    intro l h
    have hstep : (l.step o).n = ((l.step o).first.length : Int) := by
      cases o with
      | add i =>
        simp only [ListaSimple.step, ListaSimple.addHead, List.length_cons]
        push_cast
        omega
      | remove =>
        obtain ⟨f, n⟩ := l
        cases f with
        | nil => exact h
        | cons i rest =>
          simp only [List.length_cons] at h
          have hgoal : ((⟨rest, n - 1⟩ : ListaSimple α)).n = (((⟨rest, n - 1⟩ : ListaSimple α)).first.length : Int) := by
            push_cast
            push_cast at h
            omega
          exact hgoal
    exact ih (l.step o) hstep

/-- The representation invariant holds for every state reachable from a
freshly constructed ListaSimple. -/
theorem lista_run_inv {α : Type} (ops : List (COp α)) :
    (ListaSimple.run ops).n = ((ListaSimple.run ops).first.length : Int) := by
  have h0 : (ListaSimple.new : ListaSimple α).n = ((ListaSimple.new : ListaSimple α).first.length : Int) := by
    simp [ListaSimple.new]
  exact lista_runFrom_inv ops ListaSimple.new h0

/-- Claim C1.  The claim states that pop / dequeue / removeHead on an empty
container raises an Error-class exception (EmptyContainer).  The code does
not do this for the array-backed Stack and Queue: Array.prototype.pop and
Array.prototype.shift return undefined (none) on the empty array and raise
nothing, with size() still 0 afterwards; only ListaSimple throws, and what
it throws is a ReferenceError from the undeclared identifier Exception.
This theorem evaluates the code at the failing inputs: a freshly
constructed Stack and Queue. -/
theorem c1_empty_remove_actual_behavior :
    (Stack.new : Stack JSVal).pop = (none, Stack.new) ∧
    ((Stack.new : Stack JSVal).pop).2.size = 0 ∧
    (Queue.new : Queue JSVal).dequeue = (none, Queue.new) ∧
    ((Queue.new : Queue JSVal).dequeue).2.size = 0 ∧
    (ListaSimple.new : ListaSimple JSVal).removeHead
      = Except.error (JSError.referenceError "Exception") :=
  ⟨rfl, rfl, rfl, rfl, rfl⟩

/-- Claim C2.  The claim states that the add operation rejects null and
undefined with a TypeError-class error, leaving the container unchanged.
No variant performs any check on the item: pushing an absent value
succeeds and size() grows from 0 to 1 in every variant, as this theorem
evaluates at the failing inputs. -/
theorem c2_absent_item_accepted :
    JSVal.absent JSVal.nullV = true ∧
    JSVal.absent JSVal.undefinedV = true ∧
    ((Stack.new : Stack JSVal).push JSVal.nullV).size = 1 ∧
    ((Stack.new : Stack JSVal).push JSVal.undefinedV).size = 1 ∧
    ((Queue.new : Queue JSVal).enqueue JSVal.nullV).size = 1 ∧
    ((ListaSimple.new : ListaSimple JSVal).addHead JSVal.undefinedV).size = 1 := by
  decide

/-- Claim C3.  For every container variant and every finite sequence of
operations applied to a freshly constructed container (in particular every
sequence of adds and successful removes), size() returns 0 exactly when
isEmpty() returns true. -/
theorem c3_size_zero_iff_isEmpty :
    ∀ (α : Type) (ops : List (COp α)),
      ((Stack.run ops).size = 0 ↔ (Stack.run ops).isEmpty = true) ∧
      ((Queue.run ops).size = 0 ↔ (Queue.run ops).isEmpty = true) ∧
      ((ListaSimple.run ops).size = 0 ↔ (ListaSimple.run ops).isEmpty = true) := by
  intro α ops
  refine ⟨?_, ?_, ?_⟩ <;>
    simp [Stack.size, Stack.isEmpty, Queue.size, Queue.isEmpty,
      ListaSimple.size, ListaSimple.isEmpty]

/-- Claim C4.  LIFO order law for the Stack: pushing a, b, c onto any stack
and popping three times yields c, then b, then a; and the concrete
scenario: pushes of 1, 2, "Hola", "Mundo" onto an empty stack give size 4,
one pop returns "Mundo" leaving size 3, and three further pops drain the
stack to size 0. -/
theorem c4_stack_lifo_order :
    (∀ (α : Type) (s : Stack α) (a b c : α),
      ((((s.push a).push b).push c).pop).1 = some c ∧
      (((((s.push a).push b).push c).pop).2.pop).1 = some b ∧
      ((((((s.push a).push b).push c).pop).2.pop).2.pop).1 = some a) ∧
    (let s4 := (((Stack.new.push (JSVal.num 1)).push (JSVal.num 2)).push
        (JSVal.str "Hola")).push (JSVal.str "Mundo");
      s4.size = 4 ∧
      (s4.pop).1 = some (JSVal.str "Mundo") ∧
      ((s4.pop).2).size = 3 ∧
      (((((s4.pop).2.pop).2.pop).2.pop).2).size = 0 ∧
      (((((s4.pop).2.pop).2.pop).2.pop).2).isEmpty = true) := by
  constructor
  · intro α s a b c
    refine ⟨?_, ?_, ?_⟩ <;>
      simp [Stack.push, Stack.pop, List.getLast?_concat, List.dropLast_concat]
  · decide

/-- Claim C5, counterexample.  The claim asserts the FIFO law for enqueues
of a, b, c into ANY queue; on a queue that already holds "x", dequeuing
after enqueuing 1, 2, 3 returns "x", not 1. -/
theorem c5_fifo_any_queue_counterexample :
    (((((Queue.new.enqueue (JSVal.str "x")).enqueue (JSVal.num 1)).enqueue
        (JSVal.num 2)).enqueue (JSVal.num 3)).dequeue).1 = some (JSVal.str "x") ∧
    (((((Queue.new.enqueue (JSVal.str "x")).enqueue (JSVal.num 1)).enqueue
        (JSVal.num 2)).enqueue (JSVal.num 3)).dequeue).1 ≠ some (JSVal.num 1) := by
  decide

/-- Claim C5, amended.  FIFO order law for the Queue restricted to an empty
(freshly constructed) queue: enqueuing a, b, c and dequeuing three times
yields a, then b, then c; and the concrete scenario: enqueuing 1 and
"Hola" into an empty queue gives size 2, the first dequeue returns 1, the
second returns "Hola", and the queue is then empty. -/
theorem c5_fifo_from_empty_queue :
    (∀ (α : Type) (a b c : α),
      ((((Queue.new.enqueue a).enqueue b).enqueue c).dequeue).1 = some a ∧
      (((((Queue.new.enqueue a).enqueue b).enqueue c).dequeue).2.dequeue).1 = some b ∧
      ((((((Queue.new.enqueue a).enqueue b).enqueue c).dequeue).2.dequeue).2.dequeue).1
        = some c) ∧
    (let q2 := (Queue.new.enqueue (JSVal.num 1)).enqueue (JSVal.str "Hola");
      q2.size = 2 ∧
      (q2.dequeue).1 = some (JSVal.num 1) ∧
      ((q2.dequeue).2.dequeue).1 = some (JSVal.str "Hola") ∧
      (((q2.dequeue).2.dequeue).2).isEmpty = true ∧
      (((q2.dequeue).2.dequeue).2).size = 0) := by
  constructor
  · intro α a b c
    exact ⟨rfl, rfl, rfl⟩
  · decide

/-- Claim C6.  For every container variant, after any sequence of n
successful add operations and m successful remove operations applied to a
freshly constructed container (a successful run is one in which no remove
hit an empty container, which forces m ≤ n), size() returns exactly
n - m. -/
theorem c6_size_add_remove_counts :
    (∀ (α : Type) (ops : List (COp α)) (s : Stack α),
      Stack.runChecked ops = some s →
      COp.removeCount ops ≤ COp.addCount ops ∧
      s.size = COp.addCount ops - COp.removeCount ops) ∧
    (∀ (α : Type) (ops : List (COp α)) (q : Queue α),
      Queue.runChecked ops = some q →
      COp.removeCount ops ≤ COp.addCount ops ∧
      q.size = COp.addCount ops - COp.removeCount ops) ∧
    (∀ (α : Type) (ops : List (COp α)) (l : ListaSimple α),
      ListaSimple.runChecked ops = some l →
      COp.removeCount ops ≤ COp.addCount ops ∧
      l.size = (COp.addCount ops : Int) - (COp.removeCount ops : Int)) := by
  refine ⟨?_, ?_, ?_⟩
  · intro α ops s h
    have h2 := stack_runCheckedFrom_size ops Stack.new s h
    simp only [Stack.new, Stack.size, List.length_nil] at h2 ⊢
    omega
  · intro α ops q h
    have h2 := queue_runCheckedFrom_size ops Queue.new q h
    simp only [Queue.new, Queue.size, List.length_nil] at h2 ⊢
    omega
  · intro α ops l h
    have h2 := lista_runCheckedFrom_size ops ListaSimple.new l h
    simp only [ListaSimple.new, List.length_nil] at h2
    obtain ⟨hlen, hn⟩ := h2
    refine ⟨by omega, ?_⟩
    simp only [ListaSimple.size, hn]
    omega

/-- Claim C6, witness: the checked run push 1; push 2; pop on each freshly
constructed variant succeeds, with 2 adds, 1 remove and final size 1. -/
theorem c6_size_add_remove_counts_witness :
    (COp.removeCount [COp.add (JSVal.num 1), COp.add (JSVal.num 2), COp.remove]
        ≤ COp.addCount [COp.add (JSVal.num 1), COp.add (JSVal.num 2), COp.remove] ∧
      (⟨[JSVal.num 1]⟩ : Stack JSVal).size
        = COp.addCount [COp.add (JSVal.num 1), COp.add (JSVal.num 2), COp.remove]
          - COp.removeCount [COp.add (JSVal.num 1), COp.add (JSVal.num 2), COp.remove]) ∧
    (COp.removeCount [COp.add (JSVal.num 1), COp.add (JSVal.num 2), COp.remove]
        ≤ COp.addCount [COp.add (JSVal.num 1), COp.add (JSVal.num 2), COp.remove] ∧
      (⟨[JSVal.num 2]⟩ : Queue JSVal).size
        = COp.addCount [COp.add (JSVal.num 1), COp.add (JSVal.num 2), COp.remove]
          - COp.removeCount [COp.add (JSVal.num 1), COp.add (JSVal.num 2), COp.remove]) ∧
    (COp.removeCount [COp.add (JSVal.num 1), COp.add (JSVal.num 2), COp.remove]
        ≤ COp.addCount [COp.add (JSVal.num 1), COp.add (JSVal.num 2), COp.remove] ∧
      (⟨[JSVal.num 1], 1⟩ : ListaSimple JSVal).size
        = (COp.addCount [COp.add (JSVal.num 1), COp.add (JSVal.num 2), COp.remove] : Int)
          - (COp.removeCount [COp.add (JSVal.num 1), COp.add (JSVal.num 2), COp.remove] : Int)) :=
  ⟨c6_size_add_remove_counts.1 JSVal
      [COp.add (JSVal.num 1), COp.add (JSVal.num 2), COp.remove] ⟨[JSVal.num 1]⟩ rfl,
    c6_size_add_remove_counts.2.1 JSVal
      [COp.add (JSVal.num 1), COp.add (JSVal.num 2), COp.remove] ⟨[JSVal.num 2]⟩ rfl,
    c6_size_add_remove_counts.2.2 JSVal
      [COp.add (JSVal.num 1), COp.add (JSVal.num 2), COp.remove] ⟨[JSVal.num 1], 1⟩ rfl⟩

/-- Claim C7.  Linked-representation invariant of ListaSimple: after every
sequence of public operations on a fresh list, the counter #n equals the
number of nodes reachable from #first along the null-terminated chain, and
#n is 0 exactly when the #first reference is absent. -/
theorem c7_lista_representation_invariant :
    ∀ (α : Type) (ops : List (COp α)),
      (ListaSimple.run ops).n = ((ListaSimple.run ops).first.length : Int) ∧
      ((ListaSimple.run ops).n = 0 ↔ (ListaSimple.run ops).first = []) := by
  intro α ops
  have h := lista_run_inv ops
  refine ⟨h, ?_⟩
  rw [h]
  simp [List.length_eq_zero]

/-- Claim C8, counterexample.  Under the cost model that counts the
elements Array.prototype.shift must re-index, the Queue's dequeue admits
no constant bound: its cost equals the current size, which is unbounded.
Hence dequeue is not guaranteed O(1). -/
theorem c8_no_constant_dequeue_bound :
    ¬ ∃ c : Nat, ∀ q : Queue JSVal, Queue.dequeueCost q ≤ c := by
  rintro ⟨c, h⟩
  have h2 := h ⟨List.replicate (c + 1) (JSVal.num 0)⟩
  simp only [Queue.dequeueCost, List.length_replicate] at h2
  omega

/-- Claim C8, amended.  The Queue is backed by a plain JS array with no
tail reference: enqueue appends at the back of the array, dequeue removes
and returns the head via Array.prototype.shift, and the work shift
performs is linear in the current size, so dequeue is not O(1). -/
theorem c8_array_backed_queue_behavior :
    ∀ (α : Type) (q : Queue α) (i : α),
      (q.enqueue i).items = q.items ++ [i] ∧
      (q.dequeue).1 = q.items.head? ∧
      ((q.dequeue).2).items = q.items.tail ∧
      Queue.dequeueCost q = q.size := by
  intro α q i
  exact ⟨rfl, rfl, rfl, rfl⟩

/-- Claim C9.  For the array-backed Stack and Queue, pop() and dequeue()
on an empty container raise nothing: the call returns undefined (none, in
this embedding the operations are total functions) and the container is
unchanged and still has size 0. -/
theorem c9_empty_pop_dequeue_returns_undefined :
    ∀ (s : Stack JSVal) (q : Queue JSVal),
      s.size = 0 → q.size = 0 →
      s.pop = (none, s) ∧ ((s.pop).2).size = 0 ∧
      q.dequeue = (none, q) ∧ ((q.dequeue).2).size = 0 := by
  intro s q hs hq
  obtain ⟨sitems⟩ := s
  obtain ⟨qitems⟩ := q
  simp only [Stack.size] at hs
  simp only [Queue.size] at hq
  have hs2 : sitems = [] := List.length_eq_zero.mp hs
  have hq2 : qitems = [] := List.length_eq_zero.mp hq
  subst hs2
  subst hq2
  exact ⟨rfl, rfl, rfl, rfl⟩

/-- Claim C9, witness: the freshly constructed Stack and Queue have size 0,
and popping or dequeuing them returns undefined and leaves them empty. -/
theorem c9_empty_pop_dequeue_returns_undefined_witness :
    (Stack.new : Stack JSVal).pop = (none, Stack.new) ∧
    (((Stack.new : Stack JSVal).pop).2).size = 0 ∧
    (Queue.new : Queue JSVal).dequeue = (none, Queue.new) ∧
    (((Queue.new : Queue JSVal).dequeue).2).size = 0 :=
  c9_empty_pop_dequeue_returns_undefined Stack.new Queue.new rfl rfl

/-- Claim C10.  Whenever a reachable ListaSimple state has an absent #first
reference, removeHead() throws: it evaluates the undeclared identifier
Exception, raising a ReferenceError rather than the documented error type;
the failed call mutates nothing, so size() is still 0 and #first is still
absent afterwards. -/
theorem c10_removeHead_empty_reference_error :
    ∀ (ops : List (COp JSVal)),
      (ListaSimple.run ops).first = [] →
      (ListaSimple.run ops).removeHead
          = Except.error (JSError.referenceError "Exception") ∧
      ListaSimple.step (ListaSimple.run ops) COp.remove = ListaSimple.run ops ∧
      (ListaSimple.run ops).size = 0 ∧
      (ListaSimple.step (ListaSimple.run ops) COp.remove).first = [] := by
  intro ops h
  have hinv := lista_run_inv ops
  rw [h] at hinv
  simp only [List.length_nil, Nat.cast_zero] at hinv
  refine ⟨?_, ?_, ?_, ?_⟩
  · rw [ListaSimple.removeHead.eq_def, h]
  · rw [ListaSimple.step.eq_def]
    rw [ListaSimple.removeHead.eq_def, h]
  · simp only [ListaSimple.size, hinv]
  · rw [ListaSimple.step.eq_def]
    rw [ListaSimple.removeHead.eq_def, h]
    exact h

/-- Claim C10, witness: the freshly constructed list has an absent #first
reference; removeHead on it raises the ReferenceError and changes
nothing. -/
theorem c10_removeHead_empty_reference_error_witness :
    (ListaSimple.run ([] : List (COp JSVal))).removeHead
        = Except.error (JSError.referenceError "Exception") ∧
    ListaSimple.step (ListaSimple.run ([] : List (COp JSVal))) COp.remove
        = ListaSimple.run ([] : List (COp JSVal)) ∧
    (ListaSimple.run ([] : List (COp JSVal))).size = 0 ∧
    (ListaSimple.step (ListaSimple.run ([] : List (COp JSVal))) COp.remove).first = [] :=
  c10_removeHead_empty_reference_error [] rfl

end EA

